import Mathlib

/-! # Formal model of the Libri multi-agent trading decision engine

Shallow embedding of the signal aggregation, confidence-gated action
selection, feature attribution, historical strategy-return accumulation,
exploration schedule and prediction entry points of the repository
(src/AI/marl_3agent, src/AI/marl_4agent, src/BE/app/ai_wrapper.py,
src/BE/model_loader.py), together with theorems settling the claims about
them.  Korean signal strings are kept verbatim: "적극 매수" = Strong-Buy,
"매수" = Buy, "보유" = Hold, "매도" = Sell, "적극 매도" = Strong-Sell.
-/

namespace Libri

/-- Embeds the dict `action_to_score = {"Long": 1, "Hold": 0, "Short": -1}`
(marl_3agent/utils.py line 5; the identical line marl_4agent/main.py line 82).
Lookup of any other label, a KeyError in Python that no call site reaches,
is totalised to 0. -/
def action_to_score (label : String) : ℤ :=
  if label = "Long" then 1
  else if label = "Hold" then 0
  else if label = "Short" then -1
  else 0

/-- Embeds `score = sum(action_to_score[action_map[a]] for a in joint_action)`
(marl_3agent/utils.py line 6; marl_4agent/main.py line 84). -/
def voteScore (action_map : ℕ → String) (joint_action : List ℕ) : ℤ :=
  (joint_action.map (fun a => action_to_score (action_map a))).sum

/-- The action map `{0: "Long", 1: "Hold", 2: "Short"}` passed at every call
site of the joint-action-to-signal converters; indices above 2 (a KeyError in
Python, never reached) are totalised to "Short". -/
def standardActionMap (a : ℕ) : String :=
  if a = 0 then "Long" else if a = 1 then "Hold" else "Short"

namespace Marl3

/-- Embeds `convert_joint_action_to_signal` of src/AI/marl_3agent/utils.py
lines 3-13 (the 3-agent signal aggregator). -/
def convert_joint_action_to_signal (joint_action : List ℕ)
    (action_map : ℕ → String) : String :=
  let score := voteScore action_map joint_action
  if score ≥ 3 then "적극 매수"
  else if score > 0 then "매수"
  else if score = 0 then "보유"
  else if score < 0 ∧ score > -3 then "매도"
  else if score ≤ -3 then "적극 매도"
  else "보유"

end Marl3

namespace Marl4

/-- Embeds `convert_joint_action_to_signal` of src/AI/marl_4agent/main.py
lines 81-96 (the 4-agent signal aggregator). -/
def convert_joint_action_to_signal (joint_action : List ℕ)
    (action_map : ℕ → String) : String :=
  let score := voteScore action_map joint_action
  if score ≥ 3 then "적극 매수"
  else if score = 2 ∨ score = 1 then "매수"
  else if score = 0 then "보유"
  else if score = -1 ∨ score = -2 then "매도"
  else if score ≤ -3 then "적극 매도"
  else "보유"

end Marl4

/-- The claim-side N=3 threshold ladder: `score >= 3` Strong-Buy,
`score > 0` Buy, `score == 0` Hold, `-3 < score < 0` Sell,
`score <= -3` Strong-Sell. -/
def specLadder3 (score : ℤ) : String :=
  if score ≥ 3 then "적극 매수"
  else if score > 0 then "매수"
  else if score = 0 then "보유"
  else if -3 < score ∧ score < 0 then "매도"
  else "적극 매도"

/-- The claim-side N=4 ladder with the Strong-Buy/Strong-Sell cutoffs of the
N=3 ladder scaled by 4/3, i.e. moved from plus/minus 3 to plus/minus 4. -/
def specLadder4Scaled (score : ℤ) : String :=
  if score ≥ 4 then "적극 매수"
  else if score > 0 then "매수"
  else if score = 0 then "보유"
  else if -4 < score ∧ score < 0 then "매도"
  else "적극 매도"

/-- Embeds `epsilon = max(0.01, 1.0 - total_steps / 50000)` of
src/AI/marl_4agent/main.py line 271 (the training exploration schedule). -/
def epsilonAt (total_steps : ℕ) : ℚ :=
  max (1/100) (1 - (total_steps : ℚ) / 50000)

/-- C1: the 3-agent signal aggregator is a pure function of the vote total
(Long +1, Hold 0, Short -1 summed over the agents) mapped through the
threshold ladder `>= 3` Strong-Buy, `> 0` Buy, `= 0` Hold, `-3 < s < 0` Sell,
`<= -3` Strong-Sell; in particular [0,0,0] gives Strong-Buy, [0,1,2] gives
Hold, [2,2,1] gives Sell and [2,2,2] gives Strong-Sell. -/
theorem marl3_signal_ladder_correct :
    (∀ joint_action : List ℕ,
      Marl3.convert_joint_action_to_signal joint_action standardActionMap =
        specLadder3 (voteScore standardActionMap joint_action)) ∧
    Marl3.convert_joint_action_to_signal [0, 0, 0] standardActionMap = "적극 매수" ∧
    Marl3.convert_joint_action_to_signal [0, 1, 2] standardActionMap = "보유" ∧
    Marl3.convert_joint_action_to_signal [2, 2, 1] standardActionMap = "매도" ∧
    Marl3.convert_joint_action_to_signal [2, 2, 2] standardActionMap = "적극 매도" := by
  refine ⟨fun ja => ?_, by decide, by decide, by decide, by decide⟩
  simp only [Marl3.convert_joint_action_to_signal, specLadder3]
  set s := voteScore standardActionMap ja with hs
  split_ifs <;> first | rfl | omega

/-- C5 counterexample: on the joint action [0,0,0,1] (vote total 3) the
4-agent aggregator answers Strong-Buy, while the claimed 4/3-scaled ladder
(Strong-Buy only from a total of 4) would answer Buy. -/
theorem marl4_ladder_not_scaled_counterexample :
    Marl4.convert_joint_action_to_signal [0, 0, 0, 1] standardActionMap ≠
      specLadder4Scaled (voteScore standardActionMap [0, 0, 0, 1]) := by
  decide

/-- C5 amended: the 4-agent aggregator uses exactly the same plus/minus 3
threshold ladder as the 3-agent one (the cutoffs are copy-pasted, not scaled
with the agent count): its output equals the N=3 ladder applied to the vote
total, for every joint action. -/
theorem marl4_ladder_same_as_marl3 :
    ∀ joint_action : List ℕ,
      Marl4.convert_joint_action_to_signal joint_action standardActionMap =
        specLadder3 (voteScore standardActionMap joint_action) := by
  intro ja
  simp only [Marl4.convert_joint_action_to_signal, specLadder3]
  set s := voteScore standardActionMap ja with hs
  split_ifs <;> first | rfl | omega

/-- C9: the exploration epsilon equals `max(0.01, 1 - t/50000)`, starts at
1.0, is monotonically non-increasing in the step count, never exceeds 1.0 and
never falls below the floor 0.01. -/
theorem epsilon_decay_properties :
    epsilonAt 0 = 1 ∧
    (∀ s t : ℕ, s ≤ t → epsilonAt t ≤ epsilonAt s) ∧
    (∀ t : ℕ, epsilonAt t ≤ 1) ∧
    (∀ t : ℕ, 1/100 ≤ epsilonAt t) := by
  have h0 : epsilonAt 0 = 1 := by
    have h1 : epsilonAt 0 = max (1/100 : ℚ) 1 := by unfold epsilonAt; norm_num
    rw [h1, max_eq_right (by norm_num : (1:ℚ)/100 ≤ 1)]
  refine ⟨h0, fun s t h => ?_, fun t => ?_, fun t => le_max_left _ _⟩
  · unfold epsilonAt
    refine max_le_max le_rfl ?_
    have hc : (s : ℚ) ≤ (t : ℚ) := by exact_mod_cast h
    have hd : (s : ℚ) / 50000 ≤ (t : ℚ) / 50000 := by gcongr
    linarith
  · unfold epsilonAt
    refine max_le (by norm_num) ?_
    have : (0:ℚ) ≤ (t : ℚ) / 50000 := by positivity
    linarith

/-- Witness for the epsilon-decay theorem at concrete step counts. -/
theorem epsilon_decay_properties_witness :
    epsilonAt 60000 ≤ epsilonAt 100 :=
  epsilon_decay_properties.2.1 100 60000 (by norm_num)

/-! ## Historical strategy returns (ai_wrapper.py, both wrappers)

Both `A2CWrapper.get_historical_signals` (lines 251-283) and
`MarlWrapper.get_historical_signals` (lines 530-573) run the same per-day
accumulation: a day record carries the emitted integer signal (0 = Buy/Long,
1 = Sell/Short, 2 = Hold) and the close-to-close `daily_pct_change`, and the
running `cumulative_return` is compounded with the position factor of the
emitted signal.  The dates and the model inference producing the signals are
external inputs here; a processed day is a pair (signal, daily_return). -/

/-- Embeds `daily_pct_change = (curr_price - prev_price) / prev_price`. -/
def dailyPctChange (prev_price curr_price : ℚ) : ℚ :=
  (curr_price - prev_price) / prev_price

/-- Embeds `pos = {0: 1.0, 1: -1.0, 2: 0.0}[signal]` (long/short/flat
exposure of the emitted signal); signals other than 0/1/2, a KeyError in
Python that cannot occur, are totalised to 0. -/
def posOfSignal (signal : ℕ) : ℚ :=
  if signal = 0 then 1 else if signal = 1 then -1 else 0

/-- Embeds `cumulative_return = (1 + cumulative_return) * (1 + strategy_daily) - 1`
with `strategy_daily = pos * daily_pct_change`. -/
def stepCumulative (cumulative : ℚ) (signal : ℕ) (daily : ℚ) : ℚ :=
  (1 + cumulative) * (1 + posOfSignal signal * daily) - 1

/-- Embeds the loop appending `{date, signal, daily_return, strategy_return}`
records: each processed day (signal, daily_return) yields the record
(signal, daily_return, updated cumulative return); the date string is only a
label and is omitted. -/
def histRecords (cumulative : ℚ) : List (ℕ × ℚ) → List (ℕ × ℚ × ℚ)
  | [] => []
  | (s, d) :: rest =>
      (s, d, stepCumulative cumulative s d) ::
        histRecords (stepCumulative cumulative s d) rest

/-- Claim-side compounding return of following the emitted signals:
the product of the per-day factors `1 + pos * daily_return`, minus one. -/
def compoundReturn (days : List (ℕ × ℚ)) : ℚ :=
  ((days.map (fun sd => 1 + posOfSignal sd.1 * sd.2)).prod) - 1

theorem histRecords_length (cumulative : ℚ) (days : List (ℕ × ℚ)) :
    (histRecords cumulative days).length = days.length := by
  induction days generalizing cumulative with
  | nil => rfl
  | cons hd rest ih =>
      obtain ⟨s, d⟩ := hd
      simp [histRecords, ih]

theorem histRecords_get (days : List (ℕ × ℚ)) (cumulative : ℚ) (i : ℕ)
    (h : i < (histRecords cumulative days).length) :
    (histRecords cumulative days).get ⟨i, h⟩ =
      ((days.getD i (0, 0)).1, (days.getD i (0, 0)).2,
        (1 + cumulative) *
          ((days.take (i + 1)).map (fun sd => 1 + posOfSignal sd.1 * sd.2)).prod - 1) := by
  induction days generalizing cumulative i with
  | nil => simp [histRecords] at h
  | cons hd rest ih =>
      obtain ⟨s, d⟩ := hd
      cases i with
      | zero =>
          simp [histRecords, List.getD, stepCumulative]
      | succ j =>
          have hj : j < (histRecords (stepCumulative cumulative s d) rest).length := by
            simpa [histRecords] using h
          have hstep :
              (histRecords cumulative ((s, d) :: rest)).get ⟨j + 1, h⟩ =
                (histRecords (stepCumulative cumulative s d) rest).get ⟨j, hj⟩ := rfl
          rw [hstep, ih (stepCumulative cumulative s d) j hj]
          have hcum : 1 + stepCumulative cumulative s d =
              (1 + cumulative) * (1 + posOfSignal s * d) := by
            unfold stepCumulative; ring
          simp [List.getD, hcum]
          ring

/-- C2: every record emitted by the historical-signal loops carries, as its
`strategy_return`, the compounding cumulative return of following the emitted
signals up to that day — long factor +1 on signal 0 (Buy), short factor -1 on
signal 1 (Sell), flat factor 0 on signal 2 (Hold) — i.e. the running product
of `1 + pos * daily_return` minus one, where the update per day is
`cumulative = (1 + cumulative) * (1 + pos * daily_return) - 1`. -/
theorem strategy_return_compounds (days : List (ℕ × ℚ)) (i : ℕ)
    (h : i < (histRecords 0 days).length) :
    (histRecords 0 days).get ⟨i, h⟩ =
      ((days.getD i (0, 0)).1, (days.getD i (0, 0)).2,
        compoundReturn (days.take (i + 1))) := by
  have := histRecords_get days 0 i h
  simpa [compoundReturn] using this

/-- Witness for the compounding theorem at the spec's concrete example: a Buy
signal (0) with yesterday's close 70,000 and today's close 71,400 has
daily return 1/50 = 0.02, and that 0.02 is compounded into the running
cumulative return (from 0 to 0.02). -/
theorem strategy_return_compounds_witness :
    dailyPctChange 70000 71400 = 1/50 ∧
    (histRecords 0 [(0, dailyPctChange 70000 71400)]).get ⟨0, by decide⟩ =
      (0, 1/50, 1/50) := by
  refine ⟨by norm_num [dailyPctChange], ?_⟩
  have := strategy_return_compounds [(0, dailyPctChange 70000 71400)] 0 (by decide)
  rw [this]
  norm_num [dailyPctChange, compoundReturn, posOfSignal]

/-! ## Manual `current_step` overrides and the windowing precondition -/

/-- Modelled from the spec: the windowing precondition of the MARL trading
environment (`environment.py` is not under src/): an override of
`current_step` is in contract when `current_step >= 0` and
`current_step + window_size - 1 <= last valid index` of the environment's
data frame; otherwise the environment's window read is out of range. -/
def windowOk (step window lastIdx : ℤ) : Prop :=
  0 ≤ step ∧ step + window - 1 ≤ lastIdx

instance (step window lastIdx : ℤ) : Decidable (windowOk step window lastIdx) :=
  inferInstanceAs (Decidable (0 ≤ step ∧ step + window - 1 ≤ lastIdx))

/-- Embeds `last_idx = len(norm_features) - WINDOW_SIZE;
dummy_env.current_step = last_idx` of `MarlWrapper.predict_today`
(ai_wrapper.py lines 618-619); the environment's frame is `norm_features`
itself, of length `len`. -/
def marlPredictTodayStep (len window : ℤ) : ℤ := len - window

/-- Embeds `dummy_env.current_step = prev_idx - WINDOW_SIZE + 1` of
`MarlWrapper.get_historical_signals` (ai_wrapper.py line 530), where
`prev_idx = idx - 1` and `idx` is a valid position of the frame. -/
def marlHistStep (prev_idx window : ℤ) : ℤ := prev_idx - window + 1

/-- Embeds `dummy_env.current_step = len(dummy_env.df) - WINDOW_SIZE - 1` of
the marl_3agent `inference.predict_today` (inference.py line 135). -/
def marl3InferenceStep (len window : ℤ) : ℤ := len - window - 1

/-- C6 counterexample: with the marl_3agent window size 10 and an environment
frame of exactly 10 rows (which satisfies the reset insufficiency check, as
the series is not shorter than the window), the inference.py override assigns
`current_step = -1`, violating the windowing precondition. -/
theorem inference_override_violates_window :
    ¬ windowOk (marl3InferenceStep 10 10) 10 (10 - 1) := by
  decide

/-- C6 amended: the two MarlWrapper override sites satisfy the windowing
precondition whenever their in-code guards hold (`len >= WINDOW_SIZE` for
predict_today; `prev_idx >= WINDOW_SIZE - 1` with `prev_idx` one before a
valid frame position for get_historical_signals); the marl_3agent
inference.py site satisfies it only under the additional (unchecked)
assumption that the frame has at least WINDOW_SIZE + 1 rows. -/
theorem override_sites_satisfy_window :
    (∀ len window : ℤ, window ≤ len →
      windowOk (marlPredictTodayStep len window) window (len - 1)) ∧
    (∀ len prev_idx window : ℤ, window - 1 ≤ prev_idx → prev_idx ≤ len - 2 →
      windowOk (marlHistStep prev_idx window) window (len - 1)) ∧
    (∀ len window : ℤ, window + 1 ≤ len →
      windowOk (marl3InferenceStep len window) window (len - 1)) := by
  refine ⟨fun len w h => ?_, fun len p w h1 h2 => ?_, fun len w h => ?_⟩ <;>
    simp only [windowOk, marlPredictTodayStep, marlHistStep, marl3InferenceStep] <;>
    omega

/-- Witness for the override-site theorem at concrete sizes. -/
theorem override_sites_satisfy_window_witness :
    windowOk (marlPredictTodayStep 100 10) 10 (100 - 1) ∧
    windowOk (marlHistStep 50 10) 10 (100 - 1) ∧
    windowOk (marl3InferenceStep 50 10) 10 (50 - 1) :=
  ⟨override_sites_satisfy_window.1 100 10 (by decide),
   override_sites_satisfy_window.2.1 100 50 10 (by decide) (by decide),
   override_sites_satisfy_window.2.2 50 10 (by decide)⟩

/-! ## Prediction entry points and the not-loaded guards

`A2CWrapper.predict_today` and `MarlWrapper.predict_today` (ai_wrapper.py)
first attempt `load_model` and then raise a RuntimeError when the weights are
still not loaded, before entering the try-block whose failures return None.
Their bodies (data download, torch inference) are abstracted as the value
`body`; the raise is modelled as an `Except.error` carrying the message. -/

/-- Embeds the not-loaded guard of `A2CWrapper.predict_today`
(ai_wrapper.py lines 301-308). -/
def a2cPredictToday {α : Type} (model_loaded : Bool) (body : Option α) :
    Except String (Option α) :=
  if model_loaded then Except.ok body
  else Except.error "A2C model is not loaded. Check model_path in config.yaml."

/-- Embeds the not-loaded guard of `MarlWrapper.predict_today`
(ai_wrapper.py lines 589-595). -/
def marlWrapperPredictToday {α : Type} (model_loaded : Bool) (body : Option α) :
    Except String (Option α) :=
  if model_loaded then Except.ok body
  else Except.error "MARL model is not loaded. Check best_model.pth presence."

/-- Embeds the RSI vote of `ModelLoader.predict_marl` (model_loader.py lines
274-280): below 30 Buy (+1), above 70 Sell (-1), otherwise Hold (0). -/
def rsiVote (rsi : ℚ) : ℤ :=
  if rsi < 30 then 1 else if rsi > 70 then -1 else 0

/-- Embeds the MACD vote (model_loader.py lines 286-293): MACD above its
signal line Buy (+1), below Sell (-1), equal Hold (0). -/
def macdVote (macd macd_signal : ℚ) : ℤ :=
  if macd > macd_signal then 1 else if macd < macd_signal then -1 else 0

/-- Embeds the VIX vote (model_loader.py lines 300-307): above 30 Sell (-1),
below 15 Buy (+1), otherwise Hold (0). -/
def vixVote (vix : ℚ) : ℤ :=
  if vix > 30 then -1 else if vix < 15 then 1 else 0

/-- Embeds `features.get(key, default)` on the features dict, modelled as an
association list read with a default. -/
def featGet (features : List (String × ℚ)) (key : String) (dflt : ℚ) : ℚ :=
  ((features.find? (fun p => p.1 = key)).map (fun p => p.2)).getD dflt

/-- Embeds the default indicator dict substituted when `features` is empty
(model_loader.py lines 250-264). -/
def defaultMarlFeatures : List (String × ℚ) :=
  [("SMA20", 0), ("MACD", 0), ("MACD_Signal", 0), ("RSI", 50),
   ("Stoch_K", 50), ("Stoch_D", 50), ("ATR", 0), ("Bollinger_B", 1/2),
   ("VIX", 15), ("ROA", 0), ("DebtRatio", 0), ("AnalystRating", 3)]

/-- Embeds the vote-sum-to-signal rule of `ModelLoader.predict_marl`
(model_loader.py lines 315-320): positive Buy, negative Sell, zero Hold. -/
def signalOfVoteSum (vote_sum : ℤ) : String :=
  if vote_sum > 0 then "매수" else if vote_sum < 0 then "매도" else "보유"

/-- Embeds the per-agent decision label (model_loader.py line 323). -/
def decisionOfVote (v : ℤ) : String :=
  if v > 0 then "매수" else if v < 0 then "매도" else "보유"

/-- Sign-prefixed integer, the `+d` format of the vote sum in the
explanation f-string. -/
def signedIntString (v : ℤ) : String :=
  (if 0 ≤ v then "+" else "") ++ toString v

/-- Embeds the XAI explanation f-string of `ModelLoader.predict_marl`
(model_loader.py lines 324-330). -/
def marlExplanation (decisions : List String) (vote_sum : ℤ) : String :=
  "3개 에이전트 투표 결과: 모멘텀 에이전트(" ++ decisions.getD 0 "" ++
    "), 추세 에이전트(" ++ decisions.getD 1 "" ++
    "), 변동성 에이전트(" ++ decisions.getD 2 "" ++
    "). 총 투표 합계: " ++ signedIntString vote_sum ++ "점"

/-- Embeds `ModelLoader.predict_marl` (model_loader.py lines 235-332): the
loaded model object is `marl_model` (None when not loaded, and raising a
ValueError is modelled as `Except.error`); the returned tuple is
(signal, vote_sum, indicators, xai_explanation, xai_importance). -/
def predict_marl {W : Type} (marl_model : Option W)
    (features : List (String × ℚ)) :
    Except String (String × ℚ × List (String × ℚ) × String × List (String × ℚ)) :=
  match marl_model with
  | none => Except.error "MARL 모델이 로드되지 않았습니다."
  | some _ =>
    let features := if features = [] then defaultMarlFeatures else features
    let rsi := featGet features "RSI" 50
    let macd := featGet features "MACD" 0
    let macd_signal := featGet features "MACD_Signal" 0
    let vix := featGet features "VIX" 15
    let votes : List ℤ := [rsiVote rsi, macdVote macd macd_signal, vixVote vix]
    let rsi_importance := min (|rsi - 50| / 50) 1
    let macd_diff := |macd - macd_signal|
    let macd_importance := min (macd_diff / (|macd_diff| + 1)) 1
    let vix_baseline : ℚ := 45/2
    let vix_importance :=
      if vix_baseline ≠ 0 then min (|vix - vix_baseline| / vix_baseline) 1 else 0
    let xai_importance :=
      [("RSI", rsi_importance), ("MACD", macd_importance), ("VIX", vix_importance)]
    let vote_sum := votes.sum
    let signal := signalOfVoteSum vote_sum
    let agent_decisions := votes.map decisionOfVote
    let xai_explanation := marlExplanation agent_decisions vote_sum
    Except.ok (signal, (vote_sum : ℚ), features, xai_explanation, xai_importance)

/-- Embeds the learner object kept by `ModelLoader.load_marl_model`,
abstracted to the one fact the loader decides about it: whether
`load_state_dict` was applied (model_loader.py lines 99-109). -/
structure QMIX_Learner where
  weights_loaded : Bool

/-- Embeds the success path of `ModelLoader.load_marl_model`
(model_loader.py lines 49-113): a freshly constructed `QMIX_Learner` is
stored as `marl_model` whether or not `best_model.pth` exists — when the
file is missing the initialised model is kept (lines 106-107) — and True is
returned; `load_state_dict` is applied to it only when the file exists
(lines 103-104).  The exception path, which sets `marl_model` to None and
returns False, is not modelled; `predict_marl` on a None model is covered
directly. -/
def load_marl_model (best_model_exists : Bool) : Option QMIX_Learner × Bool :=
  (some { weights_loaded := best_model_exists }, true)

/-- C7 counterexample: after `load_marl_model` runs with `best_model.pth`
absent, the loader keeps an initialised learner whose trained weights were
never loaded and reports success; `predict_marl` in that state does not
raise — it returns a signal from inside the wrapper, namely Hold ("보유")
for the empty features dict (filled with the neutral defaults). -/
theorem unloaded_predict_marl_serves_hold :
    (load_marl_model false).2 = true ∧
    (load_marl_model false).1.map QMIX_Learner.weights_loaded = some false ∧
    ∃ out, predict_marl (load_marl_model false).1 [] = Except.ok out ∧
      out.1 = "보유" :=
  ⟨rfl, rfl, ⟨_, rfl, rfl⟩⟩

/-- C7 amended: the wrapper entry points `A2CWrapper.predict_today` and
`MarlWrapper.predict_today` do raise an error surfaced to the caller when
prediction is requested while the weights are not loaded, and
`ModelLoader.predict_marl` raises when `marl_model` is None; but
`load_marl_model` keeps an initialised (weightless) learner and reports
success even when `best_model.pth` is missing, and in that state
`predict_marl` returns a signal — Hold for empty features — from inside the
wrapper instead of raising. -/
theorem unloaded_prediction_behavior :
    (∀ (α : Type) (body : Option α),
      a2cPredictToday false body =
        Except.error "A2C model is not loaded. Check model_path in config.yaml.") ∧
    (∀ (α : Type) (body : Option α),
      marlWrapperPredictToday false body =
        Except.error "MARL model is not loaded. Check best_model.pth presence.") ∧
    (∀ (W : Type) (features : List (String × ℚ)),
      predict_marl (none : Option W) features =
        Except.error "MARL 모델이 로드되지 않았습니다.") ∧
    load_marl_model false = (some { weights_loaded := false }, true) ∧
    (∃ out, predict_marl (load_marl_model false).1 [] = Except.ok out ∧
      out.1 = "보유") :=
  ⟨fun _ _ => rfl, fun _ _ => rfl, fun _ _ => rfl, rfl, ⟨_, rfl, rfl⟩⟩

/-- C10: under the loaded-model precondition, `ModelLoader.predict_marl` is a
pure function of its features argument alone — the loaded weight value is
never read, so any two loaded weight states give identical outputs — and its
signal component is decided entirely by the three fixed rules on RSI, MACD
versus MACD_Signal, and VIX applied to the vote sum. -/
theorem predict_marl_pure_in_features :
    (∀ (W : Type) (w₁ w₂ : W) (features : List (String × ℚ)),
      predict_marl (some w₁) features = predict_marl (some w₂) features) ∧
    (∀ (W : Type) (w : W) (features : List (String × ℚ)),
      ∃ rest, predict_marl (some w) features =
        Except.ok
          (signalOfVoteSum
            (rsiVote (featGet (if features = [] then defaultMarlFeatures else features) "RSI" 50) +
             (macdVote (featGet (if features = [] then defaultMarlFeatures else features) "MACD" 0)
                (featGet (if features = [] then defaultMarlFeatures else features) "MACD_Signal" 0) +
              (vixVote (featGet (if features = [] then defaultMarlFeatures else features) "VIX" 15) + 0))),
           rest)) :=
  ⟨fun _ _ _ _ => rfl, fun _ _ _ => ⟨_, rfl⟩⟩

/-! ## Confidence-gated temperature sampling (`_select_action_from_logits`)

ai_wrapper.py lines 27-56.  The probabilities are the temperature softmax of
the logits over the reals; `np.sort(probs)[::-1]` is the descending sort;
`np.random.choice(len(probs), p=probs)` is modelled by inverse-CDF sampling
of an abstract uniform draw `u`, the explicit source of randomness. -/

noncomputable section

/-- Embeds `probs = softmax(logits / temperature)` (line 41). -/
def softmaxT (temperature : ℝ) (logits : List ℝ) : List ℝ :=
  logits.map (fun x =>
    Real.exp (x / temperature) /
      (logits.map (fun y => Real.exp (y / temperature))).sum)

/-- Embeds `sorted_probs = np.sort(probs)[::-1]` (line 42). -/
def sortDesc (l : List ℝ) : List ℝ := l.insertionSort (fun a b => a ≥ b)

/-- Embeds `max_p = float(sorted_probs[0])` (line 44); 0 on the empty list,
which no call site produces. -/
def maxProb (probs : List ℝ) : ℝ := (sortDesc probs).headD 0

/-- Embeds `second_p = float(sorted_probs[1]) if len(sorted_probs) > 1 else 0.0`
(line 45). -/
def secondProb (probs : List ℝ) : ℝ :=
  if 1 < probs.length then (sortDesc probs).tail.headD 0 else 0

/-- Largest value of a list of probabilities (0 on the empty list). -/
def maxVal : List ℝ → ℝ
  | [] => 0
  | [x] => x
  | x :: y :: rest => max x (maxVal (y :: rest))

/-- Embeds `top_idx = int(np.argmax(probs))` (line 43): the index of the
first occurrence of the maximum. -/
def argmaxIdx : List ℝ → ℕ
  | [] => 0
  | [_] => 0
  | x :: y :: rest => if x < maxVal (y :: rest) then 1 + argmaxIdx (y :: rest) else 0

/-- Embeds `np.random.choice(len(probs), p=probs)` (line 53) by inverse-CDF
sampling: the first index whose cumulative probability strictly exceeds the
uniform draw `u`. -/
def sampleIndex : List ℝ → ℝ → ℕ
  | [], _ => 0
  | p :: rest, u => if u < p then 0 else 1 + sampleIndex rest (u - p)

/-- Embeds lines 47-56 of `_select_action_from_logits`, after `probs` has
been computed: the conservative gate forcing Hold (2), then sampling (when
`sample` is set) or the argmax. -/
def selectFromProbs (probs : List ℝ) (min_conf min_margin : ℝ)
    (sample : Bool) (u : ℝ) : ℕ :=
  if maxProb probs < min_conf ∨ maxProb probs - secondProb probs < min_margin
  then 2
  else if sample then sampleIndex probs u
  else argmaxIdx probs

/-- Embeds `_select_action_from_logits` (ai_wrapper.py lines 27-56),
returning the pair (action index, probability vector). -/
def select_action_from_logits (logits : List ℝ)
    (temperature min_conf min_margin : ℝ) (sample : Bool) (u : ℝ) :
    ℕ × List ℝ :=
  (selectFromProbs (softmaxT temperature logits) min_conf min_margin sample u,
   softmaxT temperature logits)

end

/-- C3: for every logits vector and every min_conf/min_margin, whenever the
maximum temperature-softmax probability is below min_conf, or the gap between
the top two probabilities is below min_margin, the selected action is Hold
(index 2), regardless of the sampling mode and of the sampling draw. -/
theorem low_confidence_forces_hold (logits : List ℝ)
    (temperature min_conf min_margin : ℝ) (sample : Bool) (u : ℝ)
    (h : maxProb (softmaxT temperature logits) < min_conf ∨
      maxProb (softmaxT temperature logits) -
        secondProb (softmaxT temperature logits) < min_margin) :
    (select_action_from_logits logits temperature min_conf min_margin sample u).1 = 2 := by
  show selectFromProbs (softmaxT temperature logits) min_conf min_margin sample u = 2
  unfold selectFromProbs
  rw [if_pos h]

theorem softmaxT_three_zeros :
    softmaxT (5/2) [0, 0, 0] = [1/3, 1/3, 1/3] := by
  unfold softmaxT
  norm_num [Real.exp_zero]

theorem sortDesc_three_thirds :
    sortDesc [(1:ℝ)/3, 1/3, 1/3] = [1/3, 1/3, 1/3] := by
  unfold sortDesc
  norm_num [List.insertionSort, List.orderedInsert]

/-- Witness for the confidence gate at the defaults (temperature 2.5,
min_conf 0.70, min_margin 0.20, sampling on): uniform logits give max
probability 1/3 < 0.70, so the action is Hold. -/
theorem low_confidence_forces_hold_witness :
    (select_action_from_logits [0, 0, 0] (5/2) (7/10) (1/5) true 0).1 = 2 := by
  apply low_confidence_forces_hold
  left
  rw [softmaxT_three_zeros]
  unfold maxProb
  rw [sortDesc_three_thirds]
  norm_num

theorem softmaxT_log8 :
    softmaxT (5/2) [(5:ℝ)/2 * Real.log 8, 0, 0] = [4/5, 1/10, 1/10] := by
  unfold softmaxT
  have h : ((5:ℝ)/2 * Real.log 8) / (5/2) = Real.log 8 :=
    mul_div_cancel_left₀ (Real.log 8) (by norm_num)
  simp only [List.map_cons, List.map_nil, List.sum_cons, List.sum_nil, h,
    Real.exp_log (show (0:ℝ) < 8 by norm_num), zero_div, Real.exp_zero]
  norm_num

theorem sortDesc_log8_probs :
    sortDesc [(4:ℝ)/5, 1/10, 1/10] = [4/5, 1/10, 1/10] := by
  unfold sortDesc
  norm_num [List.insertionSort, List.orderedInsert]

theorem maxProb_log8_probs : maxProb [(4:ℝ)/5, 1/10, 1/10] = 4/5 := by
  unfold maxProb
  rw [sortDesc_log8_probs]
  rfl

theorem secondProb_log8_probs : secondProb [(4:ℝ)/5, 1/10, 1/10] = 1/10 := by
  unfold secondProb
  rw [if_pos (by norm_num : 1 < ([(4:ℝ)/5, 1/10, 1/10]).length), sortDesc_log8_probs]
  rfl

theorem log8_gate_passes :
    ¬ (maxProb [(4:ℝ)/5, 1/10, 1/10] < 7/10 ∨
       maxProb [(4:ℝ)/5, 1/10, 1/10] - secondProb [(4:ℝ)/5, 1/10, 1/10] < 1/5) := by
  rw [maxProb_log8_probs, secondProb_log8_probs]
  push_neg
  constructor <;> norm_num

/-- C8: when the gates pass and sampling is enabled the action is sampled
from the temperature-softmax distribution rather than being its mode: at the
defaults (min_conf 0.70, min_margin 0.20, sample on), the logits
`[2.5 * log 8, 0, 0]` give probabilities (0.8, 0.1, 0.1) which pass both
gates, yet the draws u = 0 and u = 0.85 return the different actions 0 and 1
(the latter not even the mode), so repeated calls on the same observation are
not guaranteed to return the same action. -/
theorem gates_passed_sampling_differs :
    ¬ (maxProb (softmaxT (5/2) [(5:ℝ)/2 * Real.log 8, 0, 0]) < 7/10 ∨
       maxProb (softmaxT (5/2) [(5:ℝ)/2 * Real.log 8, 0, 0]) -
         secondProb (softmaxT (5/2) [(5:ℝ)/2 * Real.log 8, 0, 0]) < 1/5) ∧
    (select_action_from_logits [(5:ℝ)/2 * Real.log 8, 0, 0]
        (5/2) (7/10) (1/5) true 0).1 = 0 ∧
    (select_action_from_logits [(5:ℝ)/2 * Real.log 8, 0, 0]
        (5/2) (7/10) (1/5) true (17/20)).1 = 1 ∧
    (0 : ℕ) ≠ 1 := by
  refine ⟨?_, ?_, ?_, by decide⟩
  · rw [softmaxT_log8]
    exact log8_gate_passes
  · show selectFromProbs (softmaxT (5/2) [(5:ℝ)/2 * Real.log 8, 0, 0])
      (7/10) (1/5) true 0 = 0
    rw [softmaxT_log8]
    unfold selectFromProbs
    rw [if_neg log8_gate_passes]
    norm_num [sampleIndex]
  · show selectFromProbs (softmaxT (5/2) [(5:ℝ)/2 * Real.log 8, 0, 0])
      (7/10) (1/5) true (17/20) = 1
    rw [softmaxT_log8]
    unfold selectFromProbs
    rw [if_neg log8_gate_passes]
    norm_num [sampleIndex]

/-! ## Attribution: top-k feature selection

src/AI/marl_3agent/utils.py lines 15-32 (`get_top_features_marl`) and the
identical accumulation-and-ranking lines of the 4-agent
`generate_ai_explanation` (src/AI/marl_4agent/main.py lines 100-105).  The
Python dict `all_importances` is modelled semantically: its key list is the
first-occurrence order of the feature names and each key's value is the sum
of every importance recorded under that name; `sorted(..., key=item value,
reverse=True)` is the stable descending insertion sort on the signed
value. -/

/-- First-occurrence order of the keys of an association list (the insertion
order of a Python dict built by repeated `d[k] = d.get(k, 0) + v`). -/
def firstOccurKeys : List (String × ℚ) → List String
  | [] => []
  | kv :: rest => kv.1 :: (firstOccurKeys rest).filter (fun k => k ≠ kv.1)

/-- Total importance recorded under `name` in a flat item list. -/
def keyedSum (name : String) (items : List (String × ℚ)) : ℚ :=
  (items.map (fun kv => if kv.1 = name then kv.2 else 0)).sum

/-- Embeds the dict accumulation
`all_importances[feature] = all_importances.get(feature, 0.0) + imp` over all
agents' importance lists (utils.py lines 17-20; main.py lines 100-103):
one entry per distinct feature name, in first-occurrence order, holding the
summed importance. -/
def all_importances {A B : Type}
    (agent_analyses : List (A × B × List (String × ℚ))) : List (String × ℚ) :=
  let items := (agent_analyses.map (fun t => t.2.2)).flatten
  (firstOccurKeys items).map (fun name => (name, keyedSum name items))

/-- Embeds `sorted(all_importances.items(), key=item value, reverse=True)`
(utils.py line 22; main.py line 105): a stable descending sort on the signed
importance value. -/
def sorted_features {A B : Type}
    (agent_analyses : List (A × B × List (String × ℚ))) : List (String × ℚ) :=
  (all_importances agent_analyses).insertionSort (fun p q => p.2 ≥ q.2)

/-- Embeds `get_top_features_marl` (utils.py lines 15-32): the first `top_k`
entries of the sorted importances, with the description string attached. -/
def get_top_features_marl {A B : Type}
    (agent_analyses : List (A × B × List (String × ℚ))) (top_k : ℕ) :
    List (String × ℚ × String) :=
  ((sorted_features agent_analyses).take top_k).map
    (fun p => (p.1, p.2, p.1 ++ " 지표"))

/-- Modelled from the claim: the same pipeline but ranked by absolute
importance, the descending sort key being the absolute value. -/
def specTopFeaturesByAbs {A B : Type}
    (agent_analyses : List (A × B × List (String × ℚ))) (top_k : ℕ) :
    List (String × ℚ × String) :=
  (((all_importances agent_analyses).insertionSort
      (fun p q => |p.2| ≥ |q.2|)).take top_k).map
    (fun p => (p.1, p.2, p.1 ++ " 지표"))

instance : IsTotal (String × ℚ) (fun p q => p.2 ≥ q.2) :=
  ⟨fun a b => le_total b.2 a.2⟩

instance : IsTrans (String × ℚ) (fun p q => p.2 ≥ q.2) :=
  ⟨fun _ _ _ hab hbc => le_trans hbc hab⟩

theorem firstOccurKeys_nodup : ∀ items : List (String × ℚ),
    (firstOccurKeys items).Nodup
  | [] => List.nodup_nil
  | kv :: rest => by
      simp only [firstOccurKeys, List.nodup_cons]
      refine ⟨?_, (firstOccurKeys_nodup rest).filter _⟩
      simp [List.mem_filter]

theorem mem_firstOccurKeys (k : String) : ∀ items : List (String × ℚ),
    (k ∈ firstOccurKeys items ↔ ∃ kv ∈ items, kv.1 = k)
  | [] => by simp [firstOccurKeys]
  | kv :: rest => by
      by_cases hk : k = kv.1
      · simp [firstOccurKeys, hk]
      · simp only [firstOccurKeys, List.mem_cons, List.mem_filter,
          mem_firstOccurKeys k rest, List.mem_cons]
        constructor
        · rintro (h | ⟨⟨p, hp, hpk⟩, -⟩)
          · exact absurd h.symm (by simpa [eq_comm] using hk)
          · exact ⟨p, Or.inr hp, hpk⟩
        · rintro ⟨p, hp | hp, hpk⟩
          · exact absurd (hp ▸ hpk) (fun h => hk h.symm)
          · exact Or.inr ⟨⟨p, hp, hpk⟩, by simpa using hk⟩

theorem keyedSum_eq_zero {name : String} : ∀ {items : List (String × ℚ)},
    (∀ kv ∈ items, kv.1 ≠ name) → keyedSum name items = 0
  | [], _ => rfl
  | kv :: rest, h => by
      have h1 : kv.1 ≠ name := h kv (List.mem_cons_self kv rest)
      have h2 : ∀ p ∈ rest, p.1 ≠ name := fun p hp => h p (List.mem_cons_of_mem kv hp)
      simp only [keyedSum, List.map_cons, List.sum_cons, if_neg h1, zero_add]
      simpa [keyedSum] using keyedSum_eq_zero h2

theorem keyedSum_map_not_mem {name : String} (items : List (String × ℚ)) :
    ∀ {ks : List String}, name ∉ ks →
      keyedSum name (ks.map (fun k => (k, keyedSum k items))) = 0
  | [], _ => rfl
  | k :: rest, h => by
      have h1 : name ≠ k := fun e => h (e ▸ List.mem_cons_self k rest)
      have h2 : name ∉ rest := fun e => h (List.mem_cons_of_mem k e)
      simp only [keyedSum, List.map_cons, List.sum_cons, if_neg (Ne.symm h1), zero_add]
      simpa [keyedSum] using keyedSum_map_not_mem items h2

theorem keyedSum_map_mem {name : String} (items : List (String × ℚ)) :
    ∀ {ks : List String}, ks.Nodup → name ∈ ks →
      keyedSum name (ks.map (fun k => (k, keyedSum k items))) = keyedSum name items
  | [], _, hm => absurd hm (List.not_mem_nil name)
  | k :: rest, hnd, hm => by
      rcases List.mem_cons.mp hm with he | hr
      · have hnr : name ∉ rest := he ▸ (List.nodup_cons.mp hnd).1
        simp only [keyedSum, List.map_cons, List.sum_cons, if_pos he.symm]
        have h0 := keyedSum_map_not_mem items hnr
        simp only [keyedSum] at h0
        rw [h0, add_zero, ← he]
      · have h1 : name ≠ k := fun e => (List.nodup_cons.mp hnd).1 (e ▸ hr)
        simp only [keyedSum, List.map_cons, List.sum_cons, if_neg (Ne.symm h1), zero_add]
        simpa [keyedSum] using
          keyedSum_map_mem items (List.nodup_cons.mp hnd).2 hr

theorem keyedSum_perm {name : String} {l₁ l₂ : List (String × ℚ)}
    (h : l₁.Perm l₂) : keyedSum name l₁ = keyedSum name l₂ := by
  unfold keyedSum
  exact (h.map _).sum_eq

/-- C4 counterexample: with one agent reporting importances A:-5, B:1, C:2,
D:3 and k = 3, the code returns the entries D, C, B (signed descending),
while ranking by absolute importance would return A, D, C. -/
theorem top_features_signed_vs_abs_counterexample :
    get_top_features_marl
        [((0:ℕ), (0:ℕ), [("A", (-5:ℚ)), ("B", 1), ("C", 2), ("D", 3)])] 3 ≠
      specTopFeaturesByAbs
        [((0:ℕ), (0:ℕ), [("A", (-5:ℚ)), ("B", 1), ("C", 2), ("D", 3)])] 3 := by
  have h1 : get_top_features_marl
      [((0:ℕ), (0:ℕ), [("A", (-5:ℚ)), ("B", 1), ("C", 2), ("D", 3)])] 3 =
      [("D", (3:ℚ), "D 지표"), ("C", 2, "C 지표"), ("B", 1, "B 지표")] := by
    simp [get_top_features_marl, sorted_features, all_importances,
      firstOccurKeys, keyedSum, List.insertionSort, List.orderedInsert]
    rfl
  have h2 : specTopFeaturesByAbs
      [((0:ℕ), (0:ℕ), [("A", (-5:ℚ)), ("B", 1), ("C", 2), ("D", 3)])] 3 =
      [("A", (-5:ℚ), "A 지표"), ("D", 3, "D 지표"), ("C", 2, "C 지표")] := by
    simp [specTopFeaturesByAbs, all_importances,
      firstOccurKeys, keyedSum, List.insertionSort, List.orderedInsert]
    rfl
  rw [h1, h2]
  simp

/-- C4 amended: the top-k selection first sums the importance of the same
feature name across all agents, then ranks by the signed importance value in
descending order (not by absolute importance): the ranked list is sorted
non-increasingly by signed value, and the total it records under each name
equals the sum of that name's importances over all agents' lists. -/
theorem top_features_signed_ranking :
    (∀ (A B : Type) (agent_analyses : List (A × B × List (String × ℚ))),
      List.Sorted (fun p q : String × ℚ => p.2 ≥ q.2)
        (sorted_features agent_analyses)) ∧
    (∀ (A B : Type) (agent_analyses : List (A × B × List (String × ℚ)))
        (name : String),
      keyedSum name (sorted_features agent_analyses) =
        keyedSum name ((agent_analyses.map (fun t => t.2.2)).flatten)) := by
  constructor
  · intro A B analyses
    exact List.sorted_insertionSort _ _
  · intro A B analyses name
    have hperm : (sorted_features analyses).Perm (all_importances analyses) :=
      List.perm_insertionSort _ _
    rw [keyedSum_perm hperm]
    unfold all_importances
    by_cases hmem : name ∈ firstOccurKeys ((analyses.map (fun t => t.2.2)).flatten)
    · exact keyedSum_map_mem _ (firstOccurKeys_nodup _) hmem
    · rw [keyedSum_map_not_mem _ hmem]
      refine (keyedSum_eq_zero fun kv hkv e => hmem ?_).symm
      exact (mem_firstOccurKeys name _).mpr ⟨kv, hkv, e⟩

end Libri
